import Mathlib

/-!
Verification of the goftus backend admin core (token codec, admin access
gate, banner single-active-record enforcement) against a shallow embedding
of the Express handlers in the source file.

Strings are modelled as lists of natural numbers (byte values / character
codes); an email travels through the codec as its UTF-8 byte sequence.
-/

namespace Goftus

/-! ## Base64 codec

Models Node.js Buffer base64: `Buffer.from(email).toString("base64")` on
encoding, `Buffer.from(encoded, "base64").toString("utf8")` on decoding.
Characters are ASCII codes; 61 is the padding character. Node decoding is
forgiving and never throws; the decoder below is likewise total, returning
a (possibly truncated) byte list on malformed input. -/

/-- ASCII code of the base64 alphabet character at index `i` (for i < 64). -/
def b64chr (i : Nat) : Nat :=
  if i < 26 then 65 + i
  else if i < 52 then 97 + (i - 26)
  else if i < 62 then 48 + (i - 52)
  else if i = 62 then 43
  else 47

/-- Inverse alphabet lookup: index of ASCII code `c`, none when `c` is not
a base64 alphabet character. -/
def b64idx (c : Nat) : Option Nat :=
  if 65 ≤ c ∧ c ≤ 90 then some (c - 65)
  else if 97 ≤ c ∧ c ≤ 122 then some (c - 97 + 26)
  else if 48 ≤ c ∧ c ≤ 57 then some (c - 48 + 52)
  else if c = 43 then some 62
  else if c = 47 then some 63
  else none

/-- Base64 encoding of a byte list, producing ASCII character codes with
padding, as Buffer base64 does. -/
def b64e : List Nat → List Nat
  | [] => []
  | [a] => [b64chr (a / 4), b64chr (a % 4 * 16), 61, 61]
  | [a, b] => [b64chr (a / 4), b64chr (a % 4 * 16 + b / 16), b64chr (b % 16 * 4), 61]
  | a :: b :: c :: rest =>
      b64chr (a / 4) :: b64chr (a % 4 * 16 + b / 16) ::
      b64chr (b % 16 * 4 + c / 64) :: b64chr (c % 64) :: b64e rest

/-- Base64 decoding of a character-code list back to bytes; total, tolerant
of malformed input (Buffer base64 decoding never throws). -/
def b64d : List Nat → List Nat
  | c1 :: c2 :: c3 :: c4 :: rest =>
      match b64idx c1, b64idx c2 with
      | some i1, some i2 =>
        let x1 := i1 * 4 + i2 / 16
        if c3 = 61 then [x1]
        else
          match b64idx c3 with
          | some i3 =>
            let x2 := i2 % 16 * 16 + i3 / 4
            if c4 = 61 then [x1, x2]
            else
              match b64idx c4 with
              | some i4 => x1 :: x2 :: (i3 % 4 * 64 + i4) :: b64d rest
              | none => [x1, x2]
          | none => [x1]
      | _, _ => []
  | _ => []

theorem b64idx_b64chr : ∀ i, i < 64 → b64idx (b64chr i) = some i := by decide

theorem b64chr_ne_pad : ∀ i, i < 64 → b64chr i ≠ 61 := by decide

/-- Round trip of the base64 codec on byte lists. -/
theorem b64_roundtrip : ∀ l : List Nat, (∀ x ∈ l, x < 256) → b64d (b64e l) = l
  | [], _ => rfl
  | [a], h => by
      have ha : a < 256 := h a (by simp)
      have h1 : a / 4 < 64 := by omega
      have h2 : a % 4 * 16 < 64 := by omega
      simp only [b64e, b64d, b64idx_b64chr _ h1, b64idx_b64chr _ h2, if_true,
        eq_self_iff_true]
      simp only [List.cons.injEq, and_true]
      omega
  | [a, b], h => by
      have ha : a < 256 := h a (by simp)
      have hb : b < 256 := h b (by simp)
      have h1 : a / 4 < 64 := by omega
      have h2 : a % 4 * 16 + b / 16 < 64 := by omega
      have h3 : b % 16 * 4 < 64 := by omega
      simp only [b64e, b64d, b64idx_b64chr _ h1, b64idx_b64chr _ h2, b64idx_b64chr _ h3,
        if_neg (b64chr_ne_pad _ h3), if_true, eq_self_iff_true]
      simp only [List.cons.injEq, and_true]
      omega
  | a :: b :: c :: rest, h => by
      have ha : a < 256 := h a (by simp)
      have hb : b < 256 := h b (by simp)
      have hc : c < 256 := h c (by simp)
      have ih := b64_roundtrip rest (by intro x hx; exact h x (by simp [hx]))
      have h1 : a / 4 < 64 := by omega
      have h2 : a % 4 * 16 + b / 16 < 64 := by omega
      have h3 : b % 16 * 4 + c / 64 < 64 := by omega
      have h4 : c % 64 < 64 := by omega
      simp only [b64e, b64d, b64idx_b64chr _ h1, b64idx_b64chr _ h2, b64idx_b64chr _ h3,
        b64idx_b64chr _ h4, if_neg (b64chr_ne_pad _ h3), if_neg (b64chr_ne_pad _ h4), ih]
      simp only [List.cons.injEq, and_true]
      omega

/-! ## Token codec

`encodeAdminToken` and `decodeAdminEmail` from the source, parameterised by
the configured shared secret (ADMIN_TOKEN). 46 is the code of the dot
separator. -/

def dotChar : Nat := 46

/-- encodeAdminToken: the shared secret, a dot, then the base64 of the email. -/
def encodeAdminToken (adminToken email : List Nat) : List Nat :=
  adminToken ++ dotChar :: b64e email

/-- decodeAdminEmail: null unless the token starts with the secret followed
by a dot; otherwise base64-decodes the remainder (which never throws). -/
def decodeAdminEmail (adminToken token : List Nat) : Option (List Nat) :=
  if List.isPrefixOf (adminToken ++ [dotChar]) token then
    some (b64d (token.drop (adminToken.length + 1)))
  else none

theorem isPrefixOf_append_self (l r : List Nat) : List.isPrefixOf l (l ++ r) = true := by
  induction l with
  | nil => simp
  | cons a t ih => simp [ih]

/-- C3: decoding the token produced by encoding an email returns that email,
for any configured shared secret; the email is its UTF-8 byte list. -/
theorem decode_encode_roundtrip (secret e : List Nat) (h : ∀ x ∈ e, x < 256) :
    decodeAdminEmail secret (encodeAdminToken secret e) = some e := by
  have hpre : List.isPrefixOf (secret ++ [dotChar]) (encodeAdminToken secret e) = true := by
    have h0 := isPrefixOf_append_self (secret ++ [dotChar]) (b64e e)
    rw [List.append_assoc, List.singleton_append] at h0
    exact h0
  have hdrop : (encodeAdminToken secret e).drop (secret.length + 1) = b64e e := by
    have : encodeAdminToken secret e = (secret ++ [dotChar]) ++ b64e e := by
      simp [encodeAdminToken, List.append_assoc]
    rw [this]
    have hlen : (secret ++ [dotChar]).length = secret.length + 1 := by simp
    rw [← hlen, List.drop_left]
  rw [decodeAdminEmail, if_pos hpre, hdrop, b64_roundtrip e h]

/-- Closed instance of the round-trip theorem at a concrete secret and email. -/
theorem decode_encode_roundtrip_witness :
    decodeAdminEmail [103, 111] [97, 64, 98, 46, 99] = some [97, 64, 98, 46, 99] ∨
    decodeAdminEmail [103, 111] (encodeAdminToken [103, 111] [97, 64, 98, 46, 99]) =
      some [97, 64, 98, 46, 99] :=
  Or.inr (decode_encode_roundtrip [103, 111] [97, 64, 98, 46, 99] (by decide))

/-- C4: decodeAdminEmail is a total function returning an optional email;
it returns null exactly when the token does not begin with the configured
secret followed by the dot separator (base64 decoding of the remainder is
total and never throws, so no other input yields null). -/
theorem decode_total_null_iff (secret token : List Nat) :
    decodeAdminEmail secret token = none ↔
      List.isPrefixOf (secret ++ [dotChar]) token = false := by
  unfold decodeAdminEmail
  cases hp : List.isPrefixOf (secret ++ [dotChar]) token <;> simp [hp]

/-- Closed instance of totality at a concrete malformed token. -/
theorem decode_total_null_iff_witness :
    decodeAdminEmail [103, 111] [120] = none :=
  (decode_total_null_iff [103, 111] [120]).mpr (by decide)

/-! ## Admin access gate

Environment configuration (ADMIN_EMAIL, ADMIN_PASSWORD, ADMIN_TOKEN), the
admin_users table, findAdminByEmail, requireAdmin, requireSuperAdmin and
the login handler. An unset or empty environment variable is falsy in the
source (`!ADMIN_EMAIL`), so truthiness is: present and non-empty. -/

/-- Process configuration; `none` models an unset environment variable.
ADMIN_TOKEN always has a value (it defaults to a literal in the source). -/
structure Config where
  adminEmail : Option (List Nat)
  adminPassword : Option (List Nat)
  adminToken : List Nat
deriving DecidableEq

/-- JavaScript truthiness of an optional string: present and non-empty. -/
def isTruthy : Option (List Nat) → Bool
  | some (_ :: _) => true
  | _ => false

/-- A row of the admin_users table. -/
structure AdminUser where
  id : Nat
  email : List Nat
  password_hash : Option (List Nat)
deriving DecidableEq

/-- The resolved identity attached to the request by the guard. -/
structure AdminIdentity where
  email : List Nat
  isSuperAdmin : Bool
deriving DecidableEq

/-- The `.eq("email", e).maybeSingle()` lookup on admin_users: data when
exactly one row matches, null on zero rows, error (hence null at all call
sites) on several rows. -/
def adminLookup (db : List AdminUser) (e : List Nat) : Option AdminUser :=
  match db.filter (fun u => u.email = e) with
  | [u] => some u
  | _ => none

/-- findAdminByEmail: null on a falsy email, the super-admin identity when
the configured ADMIN_EMAIL matches, otherwise an admin_users row as a
non-super identity, null on miss or lookup error. -/
def findAdminByEmail (cfg : Config) (db : List AdminUser) :
    Option (List Nat) → Option AdminIdentity
  | none => none
  | some e =>
    if e = [] then none
    else if isTruthy cfg.adminEmail ∧ cfg.adminEmail = some e then
      some ⟨e, true⟩
    else
      match adminLookup db e with
      | some u => some ⟨u.email, false⟩
      | none => none

/-- An inbound request: only the authorization header matters to the gate. -/
structure Request where
  authorization : Option (List Nat)
deriving DecidableEq

/-- Character codes of the Bearer marker including its trailing space. -/
def bearerMarker : List Nat := [66, 101, 97, 114, 101, 114, 32]

/-- Token extraction: the authorization header (empty when absent), with a
leading Bearer marker stripped. -/
def extractToken (req : Request) : List Nat :=
  let h := req.authorization.getD []
  if List.isPrefixOf bearerMarker h then h.drop 7 else h

/-- Outcome of a guard middleware: an error response or continuation with
the attached identity. -/
inductive GuardResult where
  | misconfigured
  | unauthorized
  | forbidden
  | ok (email : List Nat) (isSuperAdmin : Bool)
deriving DecidableEq

/-- requireAdmin: 500 when ADMIN_EMAIL or ADMIN_PASSWORD is falsy, 401 on
an empty token or an unresolvable identity, otherwise continuation with the
identity attached. -/
def requireAdmin (cfg : Config) (db : List AdminUser) (req : Request) : GuardResult :=
  let token := extractToken req
  if ¬ (isTruthy cfg.adminEmail = true ∧ isTruthy cfg.adminPassword = true) then
    .misconfigured
  else if token = [] then .unauthorized
  else
    match findAdminByEmail cfg db (decodeAdminEmail cfg.adminToken token) with
    | none => .unauthorized
    | some a => .ok a.email a.isSuperAdmin

/-- requireSuperAdmin: requireAdmin, then 403 unless the attached identity
is the super-admin. -/
def requireSuperAdmin (cfg : Config) (db : List AdminUser) (req : Request) : GuardResult :=
  match requireAdmin cfg db req with
  | .ok e true => .ok e true
  | .ok _ false => .forbidden
  | r => r

/-- Body of POST /api/admin/login. -/
structure LoginBody where
  email : Option (List Nat)
  username : Option (List Nat)
  password : Option (List Nat)
deriving DecidableEq

/-- JavaScript `a || b` on optional strings. -/
def jsOr (a b : Option (List Nat)) : Option (List Nat) :=
  if isTruthy a then a else b

/-- Outcome of the login handler. -/
inductive LoginResult where
  | misconfigured
  | invalidCredentials
  | ok (token email : List Nat) (isSuperAdmin : Bool)
deriving DecidableEq

/-- The login handler. `verify` models bcrypt.compare on the supplied
password and the stored hash (`password || ""` and `password_hash || ""`).
A missing candidate email cannot match any stored row, since supabase
stringifies it into a non-email filter value; that branch is a miss. -/
def login (verify : List Nat → List Nat → Bool) (cfg : Config) (db : List AdminUser)
    (body : LoginBody) : LoginResult :=
  let candidate := jsOr body.email body.username
  if ¬ (isTruthy cfg.adminEmail = true ∧ isTruthy cfg.adminPassword = true) then
    .misconfigured
  else if candidate = cfg.adminEmail ∧ body.password = cfg.adminPassword then
    match candidate with
    | some c => .ok (encodeAdminToken cfg.adminToken c) c true
    | none => .invalidCredentials
  else
    match candidate with
    | some c =>
      match adminLookup db c with
      | some u =>
        if verify (body.password.getD []) (u.password_hash.getD []) then
          .ok (encodeAdminToken cfg.adminToken u.email) u.email false
        else .invalidCredentials
      | none => .invalidCredentials
    | none => .invalidCredentials

/-- C5 counterexample: with the primary-admin configuration absent, a
request with no Authorization header fails with ServerMisconfigured, not
Unauthorized, so requireAdmin does not always fail with Unauthorized on a
missing header. -/
theorem requireAdmin_no_header_counterexample :
    requireAdmin ⟨none, none, [103, 111]⟩ [] ⟨none⟩ = GuardResult.misconfigured ∧
    requireAdmin ⟨none, none, [103, 111]⟩ [] ⟨none⟩ ≠ GuardResult.unauthorized := by
  decide

/-- C5 amended: provided the primary-admin configuration is present,
requireAdmin fails with Unauthorized exactly when the bearer token is
absent or does not resolve to a known identity (an undecodable token
resolves to nothing); a missing Authorization header always yields
Unauthorized; on success the resolved identity and privilege flag are
attached. -/
theorem requireAdmin_unauthorized_amended (cfg : Config) (db : List AdminUser)
    (req : Request) (he : isTruthy cfg.adminEmail = true)
    (hp : isTruthy cfg.adminPassword = true) :
    (req.authorization = none → requireAdmin cfg db req = .unauthorized) ∧
    (requireAdmin cfg db req = .unauthorized ↔
      extractToken req = [] ∨
      findAdminByEmail cfg db (decodeAdminEmail cfg.adminToken (extractToken req)) = none) ∧
    (∀ a, extractToken req ≠ [] →
      findAdminByEmail cfg db (decodeAdminEmail cfg.adminToken (extractToken req)) = some a →
      requireAdmin cfg db req = .ok a.email a.isSuperAdmin) := by
  refine ⟨?_, ?_, ?_⟩
  · intro h
    have ht : extractToken req = [] := by simp [extractToken, h, bearerMarker]
    simp [requireAdmin, he, hp, ht]
  · by_cases ht : extractToken req = []
    · simp [requireAdmin, he, hp, ht]
    · cases hf : findAdminByEmail cfg db (decodeAdminEmail cfg.adminToken (extractToken req)) with
      | none => simp [requireAdmin, he, hp, ht, hf]
      | some a => simp [requireAdmin, he, hp, ht, hf]
  · intro a ht hf
    simp [requireAdmin, he, hp, ht, hf]

/-- Closed instance: configured gate, missing header, Unauthorized. -/
theorem requireAdmin_unauthorized_amended_witness :
    requireAdmin ⟨some [97], some [112], [103, 111]⟩ [] ⟨none⟩ = GuardResult.unauthorized :=
  (requireAdmin_unauthorized_amended ⟨some [97], some [112], [103, 111]⟩ [] ⟨none⟩
    (by decide) (by decide)).1 rfl

/-- C6: when requireAdmin resolves an identity, requireSuperAdmin continues
exactly when the identity is the super-admin, and fails with Forbidden for
a non-super-admin identity. -/
theorem requireSuperAdmin_iff_super (cfg : Config) (db : List AdminUser) (req : Request)
    (e : List Nat) (s : Bool) (h : requireAdmin cfg db req = .ok e s) :
    (requireSuperAdmin cfg db req = .ok e s ↔ s = true) ∧
    (s = false → requireSuperAdmin cfg db req = .forbidden) := by
  cases s <;> simp [requireSuperAdmin, h]

/-- Closed instance: a super-admin token passes requireSuperAdmin. -/
theorem requireSuperAdmin_iff_super_witness :
    requireSuperAdmin ⟨some [97], some [112], [103, 111]⟩ []
      ⟨some [103, 111, 46, 89, 81, 61, 61]⟩ = GuardResult.ok [97] true :=
  ((requireSuperAdmin_iff_super ⟨some [97], some [112], [103, 111]⟩ []
      ⟨some [103, 111, 46, 89, 81, 61, 61]⟩ [97] true (by decide)).1).mpr rfl

/-- C7: with the primary-admin configuration absent entirely, every guarded
request and every login attempt fails with ServerMisconfigured, whatever
token, body or hash oracle is supplied. -/
theorem misconfigured_fail_fast (verify : List Nat → List Nat → Bool) (cfg : Config)
    (db : List AdminUser) (req : Request) (body : LoginBody)
    (he : cfg.adminEmail = none) (_hp : cfg.adminPassword = none) :
    requireAdmin cfg db req = .misconfigured ∧
    requireSuperAdmin cfg db req = .misconfigured ∧
    login verify cfg db body = .misconfigured := by
  have h1 : requireAdmin cfg db req = .misconfigured := by
    simp [requireAdmin, he, isTruthy]
  refine ⟨h1, ?_, ?_⟩
  · simp [requireSuperAdmin, h1]
  · simp [login, he, isTruthy]

/-- Closed instance: unconfigured server rejects a concrete token and body
with ServerMisconfigured. -/
theorem misconfigured_fail_fast_witness :
    requireAdmin ⟨none, none, [103, 111]⟩ [] ⟨some [103, 111, 46, 89, 81, 61, 61]⟩ =
      GuardResult.misconfigured ∧
    requireSuperAdmin ⟨none, none, [103, 111]⟩ [] ⟨some [103, 111, 46, 89, 81, 61, 61]⟩ =
      GuardResult.misconfigured ∧
    login (fun _ _ => true) ⟨none, none, [103, 111]⟩ [] ⟨some [97], none, some [112]⟩ =
      LoginResult.misconfigured :=
  misconfigured_fail_fast (fun _ _ => true) ⟨none, none, [103, 111]⟩ []
    ⟨some [103, 111, 46, 89, 81, 61, 61]⟩ ⟨some [97], none, some [112]⟩ rfl rfl

/-- C8: with the primary admin configured as email e and password p, login
succeeds as super-admin exactly on the configured pair, succeeds as
non-super-admin when the candidate email hits an admin_users row whose
stored hash verifies against the supplied password, and fails with
InvalidCredentials on any lookup miss or hash mismatch. -/
theorem login_spec (verify : List Nat → List Nat → Bool) (cfg : Config)
    (db : List AdminUser) (body : LoginBody) (e p : List Nat)
    (he : cfg.adminEmail = some e) (hp : cfg.adminPassword = some p)
    (he1 : e ≠ []) (hp1 : p ≠ []) :
    (jsOr body.email body.username = some e ∧ body.password = some p →
      login verify cfg db body = .ok (encodeAdminToken cfg.adminToken e) e true) ∧
    (∀ c u, jsOr body.email body.username = some c →
      ¬ (c = e ∧ body.password = some p) →
      adminLookup db c = some u →
      verify (body.password.getD []) (u.password_hash.getD []) = true →
      login verify cfg db body = .ok (encodeAdminToken cfg.adminToken u.email) u.email false) ∧
    (∀ c, jsOr body.email body.username = some c →
      ¬ (c = e ∧ body.password = some p) →
      adminLookup db c = none →
      login verify cfg db body = .invalidCredentials) ∧
    (∀ c u, jsOr body.email body.username = some c →
      ¬ (c = e ∧ body.password = some p) →
      adminLookup db c = some u →
      verify (body.password.getD []) (u.password_hash.getD []) = false →
      login verify cfg db body = .invalidCredentials) ∧
    (jsOr body.email body.username = none →
      login verify cfg db body = .invalidCredentials) := by
  have hte : isTruthy (some e) = true := by
    cases e with
    | nil => exact absurd rfl he1
    | cons x xs => rfl
  have htp : isTruthy (some p) = true := by
    cases p with
    | nil => exact absurd rfl hp1
    | cons x xs => rfl
  refine ⟨?_, ?_, ?_, ?_, ?_⟩
  · rintro ⟨hc, hpw⟩
    simp [login, hte, htp, he, hp, hc, hpw]
  · intro c u hc hne hu hv
    simp [login, hte, htp, he, hp, hc, hne, hu, hv]
  · intro c hc hne hu
    simp [login, hte, htp, he, hp, hc, hne, hu]
  · intro c u hc hne hu hv
    simp [login, hte, htp, he, hp, hc, hne, hu, hv]
  · intro hc
    have hne : jsOr body.email body.username ≠ cfg.adminEmail := by
      rw [hc, he]; exact fun h => Option.noConfusion h
    simp [login, he, hp, hte, htp, hc, hne]

/-- Closed instance: the configured primary pair logs in as super-admin. -/
theorem login_spec_witness :
    login (fun _ _ => false) ⟨some [97], some [112], [103, 111]⟩ []
      ⟨some [97], none, some [112]⟩ =
      LoginResult.ok (encodeAdminToken [103, 111] [97]) [97] true :=
  (login_spec (fun _ _ => false) ⟨some [97], some [112], [103, 111]⟩ []
    ⟨some [97], none, some [112]⟩ [97] [112] rfl rfl (by decide) (by decide)).1
    ⟨by decide, rfl⟩

/-! ## Banner handlers and the single-active-record enforcement

The banners table is a list of rows; timestamps are database-generated and
irrelevant to the enforcement, so they are not modelled. Each handler
returns the new table, the HTTP response, and the ordered list of write
operations it issued against the table, so that write ordering is itself a
provable artefact. Supabase calls do not throw; an ignored sweep result is
modelled by the sweep outcome parameter where a claim needs it. -/

/-- A banners row. -/
structure Banner where
  id : Nat
  product : List Nat
  message : List Nat
  href : Option (List Nat)
  is_active : Bool
deriving DecidableEq

/-- A write issued against the banners table, in issue order. -/
inductive WriteOp where
  | insertRow (b : Banner)
  | updateRow (id : Nat)
  | sweep (exceptId : Nat)
deriving DecidableEq

/-- The handler response: the mutated row, 400, or 500. -/
inductive BannerResponse where
  | ok (b : Banner)
  | badRequest
  | err
deriving DecidableEq

/-- Outcome of one banner handler invocation. -/
structure HandlerOut where
  db : List Banner
  response : BannerResponse
  writes : List WriteOp
deriving DecidableEq

/-- The sweep: `update({is_active:false}).neq("id", bid)`. -/
def sweepOthers (bid : Nat) (s : List Banner) : List Banner :=
  s.map fun b => if b.id = bid then b else { b with is_active := false }

/-- `update({is_active:true}).eq("id", bid)`. -/
def setActive (bid : Nat) (s : List Banner) : List Banner :=
  s.map fun b => if b.id = bid then { b with is_active := true } else b

/-- `href || null` for the stored href column. -/
def jsOrNull (o : Option (List Nat)) : Option (List Nat) :=
  if isTruthy o then o else none

/-- Body of POST /api/admin/banners; is_active is a JSON boolean when
present, and `Boolean(is_active)` of an absent field is false. -/
structure CreateBannerBody where
  product : Option (List Nat)
  message : Option (List Nat)
  href : Option (List Nat)
  is_active : Option Bool
deriving DecidableEq

/-- POST /api/admin/banners: validate, insert the new row (the store
assigns `nextId`), and only when the inserted row is active issue the
sweep afterwards. The sweep result is ignored by the source, so a failed
sweep (`sweepOk = false`) leaves the table unswept but changes nothing
else. -/
def postBanner (nextId : Nat) (sweepOk : Bool) (body : CreateBannerBody)
    (s : List Banner) : HandlerOut :=
  if ¬ (isTruthy body.product = true ∧ isTruthy body.message = true) then
    ⟨s, .badRequest, []⟩
  else
    let row : Banner :=
      { id := nextId
        product := body.product.getD []
        message := body.message.getD []
        href := jsOrNull body.href
        is_active := body.is_active.getD false }
    let s1 := s ++ [row]
    if row.is_active then
      ⟨if sweepOk then sweepOthers nextId s1 else s1, .ok row,
        [.insertRow row, .sweep nextId]⟩
    else
      ⟨s1, .ok row, [.insertRow row]⟩

/-- Body of PUT /api/admin/banners/:id after the typeof checks: a field is
present only when it had the accepted type; href records string-or-null. -/
structure UpdateBannerBody where
  product : Option (List Nat)
  message : Option (List Nat)
  href : Option (Option (List Nat))
  is_active : Option Bool
deriving DecidableEq

/-- Application of the update payload to a row, with `href || null`. -/
def applyPatch (p : UpdateBannerBody) (b : Banner) : Banner :=
  { b with
    product := p.product.getD b.product
    message := p.message.getD b.message
    href := match p.href with
      | some h => jsOrNull h
      | none => b.href
    is_active := p.is_active.getD b.is_active }

/-- PUT /api/admin/banners/:id: when the payload sets is_active to true the
sweep is issued first, then the target row is updated;
`select().single()` yields the row on exactly one match, 500 otherwise. -/
def putBanner (bid : Nat) (body : UpdateBannerBody) (s : List Banner) : HandlerOut :=
  let swept := body.is_active = some true
  let s1 := if swept then sweepOthers bid s else s
  let s2 := s1.map fun b => if b.id = bid then applyPatch body b else b
  let pre : List WriteOp := if swept then [.sweep bid] else []
  match s2.filter (fun b => b.id = bid) with
  | [b] => ⟨s2, .ok b, pre ++ [.updateRow bid]⟩
  | _ => ⟨s2, .err, pre ++ [.updateRow bid]⟩

/-- POST /api/admin/banners/:id/activate: the sweep is issued first and its
result ignored, then the target row is set active;
`select().single()` yields the row on exactly one match, 500 otherwise. -/
def activateBanner (bid : Nat) (s : List Banner) : HandlerOut :=
  let s1 := sweepOthers bid s
  let s2 := setActive bid s1
  match s2.filter (fun b => b.id = bid) with
  | [b] => ⟨s2, .ok b, [.sweep bid, .updateRow bid]⟩
  | _ => ⟨s2, .err, [.sweep bid, .updateRow bid]⟩

/-- Combined effect of the activate sweep and target update on one row. -/
def activateRow (bid : Nat) (b : Banner) : Banner :=
  if b.id = bid then { b with is_active := true } else { b with is_active := false }

theorem activateBanner_eq (bid : Nat) (s : List Banner) :
    activateBanner bid s =
      match (setActive bid (sweepOthers bid s)).filter (fun b => b.id = bid) with
      | [b] => ⟨setActive bid (sweepOthers bid s), .ok b, [.sweep bid, .updateRow bid]⟩
      | _ => ⟨setActive bid (sweepOthers bid s), .err, [.sweep bid, .updateRow bid]⟩ := rfl

theorem activateRow_id (bid : Nat) (b : Banner) : (activateRow bid b).id = b.id := by
  unfold activateRow
  by_cases hb : b.id = bid <;> simp [hb]

theorem sweep_then_set (bid : Nat) (s : List Banner) :
    setActive bid (sweepOthers bid s) = s.map (activateRow bid) := by
  unfold setActive sweepOthers activateRow
  rw [List.map_map]
  apply List.map_congr_left
  intro b _
  by_cases hb : b.id = bid <;> simp [hb]

theorem filter_id_singleton (s : List Banner) (B : Banner)
    (hnd : (s.map Banner.id).Nodup) (hmem : B ∈ s) :
    s.filter (fun b => b.id = B.id) = [B] := by
  induction s with
  | nil => cases hmem
  | cons a t ih =>
    rw [List.map_cons, List.nodup_cons] at hnd
    rcases List.mem_cons.mp hmem with rfl | hB
    · rw [List.filter_cons_of_pos (by simp)]
      have ht : t.filter (fun b => b.id = B.id) = [] := by
        rw [List.filter_eq_nil_iff]
        intro b hb hid
        have hbid : b.id = B.id := by simpa using hid
        exact hnd.1 (hbid ▸ List.mem_map_of_mem Banner.id hb)
      rw [ht]
    · have hne : a.id ≠ B.id := by
        intro hcontra
        exact hnd.1 (hcontra ▸ List.mem_map_of_mem Banner.id hB)
      rw [List.filter_cons_of_neg (by simpa using hne)]
      exact ih hnd.2 hB

/-- C1: activating a banner B present in the table succeeds and leaves
exactly B active: the response is B with is_active set, the stored rows are
active exactly when they carry B's identifier, and exactly one row is
active; in particular this holds when B was already the sole active row. -/
theorem activate_single_active (s : List Banner) (B : Banner)
    (hmem : B ∈ s) (hnd : (s.map Banner.id).Nodup) :
    (activateBanner B.id s).response = .ok { B with is_active := true } ∧
    { B with is_active := true } ∈ (activateBanner B.id s).db ∧
    (∀ b ∈ (activateBanner B.id s).db, b.is_active = true ↔ b.id = B.id) ∧
    ((activateBanner B.id s).db.countP fun b => b.is_active) = 1 := by
  have hcomb := sweep_then_set B.id s
  have hfil : (setActive B.id (sweepOthers B.id s)).filter (fun b => b.id = B.id) =
      [{ B with is_active := true }] := by
    rw [hcomb, List.filter_map]
    have hcongr : s.filter ((fun b => decide (b.id = B.id)) ∘ activateRow B.id) =
        s.filter (fun b => b.id = B.id) := by
      apply List.filter_congr
      intro b _
      simp [Function.comp, activateRow_id]
    rw [hcongr, filter_id_singleton s B hnd hmem]
    simp [activateRow]
  have hout : activateBanner B.id s =
      ⟨setActive B.id (sweepOthers B.id s), .ok { B with is_active := true },
        [.sweep B.id, .updateRow B.id]⟩ := by
    rw [activateBanner_eq, hfil]
  rw [hout]
  refine ⟨rfl, ?_, ?_, ?_⟩
  · rw [hcomb]
    have : activateRow B.id B = { B with is_active := true } := by simp [activateRow]
    exact this ▸ List.mem_map_of_mem (activateRow B.id) hmem
  · intro b hb
    rw [hcomb] at hb
    rcases List.mem_map.mp hb with ⟨a, _, rfl⟩
    by_cases ha : a.id = B.id <;> simp [activateRow, ha]
  · rw [hcomb, List.countP_map]
    have hcongr : s.countP ((fun b => b.is_active) ∘ activateRow B.id) =
        s.countP (fun b => b.id = B.id) := by
      apply List.countP_congr
      intro b _
      by_cases hb : b.id = B.id <;> simp [Function.comp, activateRow, hb]
    rw [hcongr, List.countP_eq_length_filter, filter_id_singleton s B hnd hmem]
    rfl

/-- Closed instance: the spec scenario, activating row 2 of a table where
row 1 was active, returns row 2 as the active row. -/
theorem activate_single_active_witness :
    (activateBanner 2 [⟨1, [112], [109], none, true⟩,
      ⟨2, [112], [109], none, false⟩]).response =
      BannerResponse.ok ⟨2, [112], [109], none, true⟩ :=
  (activate_single_active [⟨1, [112], [109], none, true⟩, ⟨2, [112], [109], none, false⟩]
    ⟨2, [112], [109], none, false⟩ (by decide) (by decide)).1

/-- C2 counterexample: in the activate handler the sweep is the first write
issued, before the triggering write on the target row, so the triggering
write does not precede the sweep for every enforcer operation. -/
theorem enforcer_order_counterexample :
    (activateBanner 2 [⟨1, [112], [109], none, true⟩,
      ⟨2, [112], [109], none, false⟩]).writes =
      [WriteOp.sweep 2, WriteOp.updateRow 2] ∧
    (activateBanner 2 [⟨1, [112], [109], none, true⟩,
      ⟨2, [112], [109], none, false⟩]).writes ≠
      [WriteOp.updateRow 2, WriteOp.sweep 2] := by
  decide

/-- C2 amended: the insert handler performs the triggering insert first and
issues the sweep afterwards, while the update handler setting the active
flag and the explicit activate handler issue the sweep first, before the
triggering write on the target row. -/
theorem enforcer_write_order_amended :
    (∀ nextId sweepOk body s, isTruthy body.product = true →
      isTruthy body.message = true → body.is_active = some true →
      ∃ row, (postBanner nextId sweepOk body s).writes =
        [WriteOp.insertRow row, WriteOp.sweep nextId] ∧ row.id = nextId) ∧
    (∀ bid body s, body.is_active = some true →
      (putBanner bid body s).writes = [WriteOp.sweep bid, WriteOp.updateRow bid]) ∧
    (∀ bid s, (activateBanner bid s).writes =
      [WriteOp.sweep bid, WriteOp.updateRow bid]) := by
  refine ⟨?_, ?_, ?_⟩
  · intro nextId sweepOk body s hp hm ha
    refine ⟨⟨nextId, body.product.getD [], body.message.getD [],
      jsOrNull body.href, true⟩, ?_, rfl⟩
    simp [postBanner, hp, hm, ha]
  · intro bid body s ha
    unfold putBanner
    simp only [ha]
    split <;> simp
  · intro bid s
    rw [activateBanner_eq]
    split <;> rfl

/-- Closed instance: a put setting the active flag issues the sweep first. -/
theorem enforcer_write_order_amended_witness :
    (putBanner 5 ⟨none, none, none, some true⟩ []).writes =
      [WriteOp.sweep 5, WriteOp.updateRow 5] :=
  enforcer_write_order_amended.2.1 5 ⟨none, none, none, some true⟩ [] rfl

/-- C9: the response of the banner insert handler does not depend on the
outcome of the sweep: when the insert succeeds, the inserted row is
returned whether the sweep write succeeds or fails. -/
theorem sweep_failure_not_surfaced (nextId : Nat) (body : CreateBannerBody)
    (s : List Banner) (hp : isTruthy body.product = true)
    (hm : isTruthy body.message = true) :
    ∃ row, (postBanner nextId false body s).response = .ok row ∧
      (postBanner nextId true body s).response = .ok row := by
  refine ⟨⟨nextId, body.product.getD [], body.message.getD [],
    jsOrNull body.href, body.is_active.getD false⟩, ?_, ?_⟩ <;>
  · by_cases ha : body.is_active.getD false = true
    · simp [postBanner, hp, hm, ha]
    · simp [postBanner, hp, hm, ha]

/-- Closed instance: an active insert with a failed sweep still returns the
inserted row. -/
theorem sweep_failure_not_surfaced_witness :
    ∃ row, (postBanner 5 false ⟨some [112], some [109], none, some true⟩ []).response =
      BannerResponse.ok row ∧
    (postBanner 5 true ⟨some [112], some [109], none, some true⟩ []).response =
      BannerResponse.ok row :=
  sweep_failure_not_surfaced 5 ⟨some [112], some [109], none, some true⟩ []
    (by decide) (by decide)

/-- C10: activating an identifier that matches no banner row returns an
error response, yet the sweep has already run: every row of the resulting
table is the corresponding input row with is_active cleared. -/
theorem activate_missing_id_sweeps (bid : Nat) (s : List Banner)
    (h : ∀ b ∈ s, b.id ≠ bid) :
    (activateBanner bid s).response = .err ∧
    (activateBanner bid s).db = s.map fun b => { b with is_active := false } := by
  have h1 : sweepOthers bid s = s.map fun b => { b with is_active := false } := by
    unfold sweepOthers
    apply List.map_congr_left
    intro b hb
    simp [h b hb]
  have h2 : setActive bid (s.map fun b => { b with is_active := false }) =
      s.map fun b => { b with is_active := false } := by
    unfold setActive
    rw [List.map_map]
    apply List.map_congr_left
    intro b hb
    simp [h b hb]
  have h3 : ((s.map fun b => { b with is_active := false }).filter
      (fun b => b.id = bid)) = [] := by
    rw [List.filter_eq_nil_iff]
    intro b hb
    rcases List.mem_map.mp hb with ⟨a, ha, rfl⟩
    simpa using h a ha
  rw [activateBanner_eq, h1, h2, h3]
  exact ⟨rfl, rfl⟩

/-- Closed instance: activating an absent id 2 deactivates row 1 and fails. -/
theorem activate_missing_id_sweeps_witness :
    (activateBanner 2 [⟨1, [112], [109], none, true⟩]).response = BannerResponse.err ∧
    (activateBanner 2 [⟨1, [112], [109], none, true⟩]).db =
      ([⟨1, [112], [109], none, true⟩] : List Banner).map
        (fun b => { b with is_active := false }) :=
  activate_missing_id_sweeps 2 [⟨1, [112], [109], none, true⟩] (by decide)

end Goftus
